import Mathlib

/-!
Verification of the Steel-Optimizer training engine.

A shallow embedding of `src/lib/ml-engine.ts` (and its callers' observable
contract) into Lean 4, together with theorems settling the specification
claims about it.

Modelling conventions:
* JavaScript numbers are modelled by exact rationals `ℚ`.  The non-finite
  doubles `NaN` and `±Infinity` are modelled where they are observable:
  `JsNum` models the result of `Number(...)` coercion and of guarded
  divisions inside the metrics calculator; `Option ℚ` (`none` = `NaN` or
  `undefined`) models values flowing through reconstructed (deserialized)
  models.  Float rounding itself is not modelled: all arithmetic is exact.
* `Math.sqrt` and the external npm package
  `ml-regression-multivariate-linear` are not part of this repository;
  they are modelled as parameters of the engine (`MLRuntime`): an abstract
  square-root function on rationals and an abstract fitted-model factory.
* The ambient clock `Date.now()` (used only to mint artifact ids) is
  modelled by an explicit environment `TrainEnv`.
* `async`/`await` suspension points have no data content; the progress
  callback invocations are collected into an explicit event list, in
  emission order.
-/

namespace MLE

/-- Model of a JavaScript number as produced by `Number(...)` coercion or a
division: either a finite value (an exact rational here), an infinity with a
sign, or `NaN`. -/
inductive JsNum where
  | fin (q : ℚ)
  | inf (neg : Bool)
  | nan
  deriving DecidableEq

/-- `isNaN(v)` on a `JsNum`. -/
def JsNum.isNaNb : JsNum → Bool
  | .nan => true
  | _ => false

/-- `Number.isFinite(v)` on a `JsNum`. -/
def JsNum.isFiniteb : JsNum → Bool
  | .fin _ => true
  | _ => false

/-- Projection of a `JsNum` to the exact-rational world used for matrix
values.  Non-finite numbers are not representable exactly; they are mapped
to `0`.  No theorem below evaluates training on a row carrying a non-finite
value, so this default is never load-bearing. -/
def JsNum.toQ : JsNum → ℚ
  | .fin q => q
  | _ => 0

/-- The sanitize guard of `calculateMetrics`:
`isFinite(v) && !isNaN(v) ? v : 0`. -/
def sanitize : JsNum → ℚ
  | .fin q => q
  | _ => 0

/-- JavaScript division `a / b` of finite numbers: `0/0 = NaN`,
`a/0 = ±Infinity` for `a ≠ 0`. -/
def jdiv (a b : ℚ) : JsNum :=
  if b = 0 then (if a = 0 then .nan else .inf (decide (a < 0))) else .fin (a / b)

/-- `Math.sqrt` on a `JsNum`, with the square root of nonnegative finite
numbers supplied by the runtime parameter `msqrt`. -/
def jsqrt (msqrt : ℚ → ℚ) : JsNum → JsNum
  | .fin q => if q < 0 then .nan else .fin (msqrt q)
  | .inf neg => if neg then .nan else .inf false
  | .nan => .nan

/-- `a - v` for finite `a` and a `JsNum` `v`. -/
def jsub (a : ℚ) : JsNum → JsNum
  | .fin q => .fin (a - q)
  | .inf neg => .inf (!neg)
  | .nan => .nan

/-- `Math.max(0, v)`. -/
def jmax0 : JsNum → JsNum
  | .fin q => .fin (max 0 q)
  | .inf neg => if neg then .fin 0 else .inf false
  | .nan => .nan

/-- `v * c` for a positive finite constant `c`. -/
def jmul (c : ℚ) : JsNum → JsNum
  | .fin q => .fin (q * c)
  | .inf neg => .inf neg
  | .nan => .nan

/-- A raw cell of an input row, classified by its observable behaviour
under `Number(...)`, `=== ''` and `=== null`.  `strNum q` is a non-empty
string parsing to the finite number `q` (a whitespace-only string parses
to `0`); `bad` covers `undefined`, `NaN` and every value whose `Number`
coercion is `NaN`. -/
inductive Cell where
  | num (q : ℚ)
  | infVal (neg : Bool)
  | strNum (q : ℚ)
  | emptyStr
  | null
  | bad
  deriving DecidableEq

/-- `Number(cell)`: note `Number('') = 0` and `Number(null) = 0`, which is
why the clean-row filter additionally tests `=== ''` and `=== null`. -/
def Cell.toNum : Cell → JsNum
  | .num q => .fin q
  | .infVal neg => .inf neg
  | .strNum q => .fin q
  | .emptyStr => .fin 0
  | .null => .fin 0
  | .bad => .nan

/-- An input row: a name-to-value mapping with arbitrary extra columns
(a missing column reads as a `bad` cell, i.e. `undefined`). -/
abbrev Row := String → Cell

/-- The per-cell validity test of `trainModels`' clean-data filter:
`!isNaN(Number(v)) && v !== '' && v !== null`. -/
def cellValid (c : Cell) : Bool :=
  !c.toNum.isNaNb &&
    (match c with
     | .emptyStr => false
     | .null => false
     | _ => true)

/-- `TrainingConfig` from `ml-engine.ts`. -/
structure TrainingConfig where
  targetVariable : String
  features : List String
  testSplit : ℚ
  models : List String

/-- A row passes the clean-data filter iff its target cell and every
configured feature cell pass `cellValid`. -/
def rowValid (cfg : TrainingConfig) (row : Row) : Bool :=
  cellValid (row cfg.targetVariable) && cfg.features.all fun f => cellValid (row f)

/-- The clean-data filter of `trainModels` (lines 607-614). -/
def cleanRows (cfg : TrainingConfig) (data : List Row) : List Row :=
  data.filter (rowValid cfg)

/-- The feature vector of a row, in configured feature order. -/
def featVec (cfg : TrainingConfig) (row : Row) : List ℚ :=
  cfg.features.map fun f => (row f).toNum.toQ

/-- The target value of a row. -/
def targetVal (cfg : TrainingConfig) (row : Row) : ℚ :=
  (row cfg.targetVariable).toNum.toQ

/-! ## Seeded linear congruential generator and Fisher-Yates shuffles -/

/-- One step of the 32-bit LCG used everywhere in the engine:
`s = (Math.imul(s, 1664525) + 1013904223) >>> 0`. -/
def lcgStep (s : ℕ) : ℕ := (s * 1664525 + 1013904223) % 4294967296

/-- The `[0,1)` output of the LCG: `s / 0x100000000`. -/
def lcgQ (s : ℕ) : ℚ := (s : ℚ) / 4294967296

/-- Swap of two positions of a list (the array-destructuring swap
`[a[i], a[j]] = [a[j], a[i]]`).  Out-of-bounds indices leave the list
unchanged; every use below is in bounds. -/
def swapL {α : Type} (l : List α) (i j : ℕ) : List α :=
  match l.get? i, l.get? j with
  | some a, some b => (l.set i b).set j a
  | _, _ => l

/-- The Fisher-Yates shuffle of `trainModels` (lines 626-632): iterate `i`
from `length-1` down to `1`, advance the seed, swap position `i` with
position `seed % (i+1)`. -/
def shuffleLCG {α : Type} (seed : ℕ) (l : List α) : List α :=
  (((List.range l.length).drop 1).reverse.foldl
    (fun acc i =>
      let s := lcgStep acc.1
      (s, swapL acc.2 i (s % (i + 1))))
    (seed, l)).2

/-- The floor-based Fisher-Yates shuffle used for the random feature subset
(lines 388-391) and for permutation importance (lines 488-491): position
`i` is swapped with `Math.floor(rand() * (i+1))`.  Returns the final seed
state together with the shuffled list. -/
def fyFloorShuffle {α : Type} (seed : ℕ) (l : List α) : ℕ × List α :=
  ((List.range l.length).drop 1).reverse.foldl
    (fun acc i =>
      let s := lcgStep acc.1
      (s, swapL acc.2 i (Int.toNat ⌊lcgQ s * (i + 1)⌋)))
    (seed, l)

/-- JavaScript `shuffled.slice(0, k)` / `shuffled.slice(k)` boundary for
`k = Math.floor(n * (1 - testSplit))`, including the negative-index
wrap-around of `slice`. -/
def jsSplitIndex (n : ℕ) (t : ℚ) : ℕ :=
  let k : ℤ := ⌊(n : ℚ) * (1 - t)⌋
  min (Int.toNat (if k < 0 then (n : ℤ) + k else k)) n

/-- The prepared data of a training run: shuffled train/test split plus the
full shuffled set retained for cross-validation (lines 622-642). -/
structure PrepData where
  Xtrain : List (List ℚ)
  ytrain : List ℚ
  Xtest : List (List ℚ)
  ytest : List ℚ
  Xall : List (List ℚ)
  yall : List ℚ

/-- Clean-row matrices, fixed-seed shuffle, and split. -/
def prepare (cfg : TrainingConfig) (clean : List Row) : PrepData :=
  let X := clean.map (featVec cfg)
  let y := clean.map (targetVal cfg)
  let shuffled := shuffleLCG 42 (X.zip y)
  let si := jsSplitIndex shuffled.length cfg.testSplit
  { Xtrain := (shuffled.take si).map (·.1)
    ytrain := (shuffled.take si).map (·.2)
    Xtest := (shuffled.drop si).map (·.1)
    ytest := (shuffled.drop si).map (·.2)
    Xall := shuffled.map (·.1)
    yall := shuffled.map (·.2) }

/-! ## Standard scaler -/

/-- Serialized form of a fitted `StandardScaler`: `{means[], stds[]}`. -/
structure ScalerJson where
  means : List ℚ
  stds : List ℚ
  deriving DecidableEq

/-- `StandardScaler.fit` on training rows: per-feature population mean and
standard deviation, with the `Math.sqrt(variance) || 1` guard mapping a
zero (falsy) standard deviation to `1`. -/
def scalerFit (msqrt : ℚ → ℚ) (X : List (List ℚ)) : ScalerJson :=
  let n : ℚ := X.length
  let nF := (X.headD []).length
  let col := fun f => X.map fun r => r.getD f 0
  { means := (List.range nF).map fun f => (col f).sum / n
    stds := (List.range nF).map fun f =>
      let mean := (col f).sum / n
      let variance := ((col f).map fun v => (v - mean) ^ 2).sum / n
      let s := msqrt variance
      if s = 0 then 1 else s }

/-- `StandardScaler.transformSingle`: `(x - mean) / std` elementwise. -/
def scalerTransformSingle (sc : ScalerJson) (x : List ℚ) : List ℚ :=
  x.mapIdx fun f v => (v - sc.means.getD f 0) / (sc.stds.getD f 1)

/-- `StandardScaler.transform` on a matrix. -/
def scalerTransform (sc : ScalerJson) (X : List (List ℚ)) : List (List ℚ) :=
  X.map (scalerTransformSingle sc)

/-! ## Decision stump -/

/-- `DecisionStump`: a single-split weak learner; fields default to `0`
when `train` finds no valid split. -/
structure DecisionStump where
  feature : ℕ
  threshold : ℚ
  leftVal : ℚ
  rightVal : ℚ
  deriving DecidableEq

/-- `DecisionStump.predictSingle`: `x[feature] <= threshold ? leftVal :
rightVal`; an out-of-range lookup reads `undefined`, whose comparison is
`false`, selecting `rightVal`. -/
def stumpPredictSingle (st : DecisionStump) (x : List ℚ) : ℚ :=
  match x[st.feature]? with
  | some v => if v ≤ st.threshold then st.leftVal else st.rightVal
  | none => st.rightVal

/-- State of the stump threshold sweep: running left/right sums and sums of
squares, the boundary index `k`, and the best candidate so far
(`none` = initial `bestMSE = Infinity`). -/
structure SweepState where
  leftSum : ℚ
  leftSumSq : ℚ
  rightSum : ℚ
  rightSumSq : ℚ
  k : ℕ
  best : Option (ℚ × DecisionStump)

/-- The inner sweep of `DecisionStump.train` over one feature's sorted
`(value, residual)` pairs: each adjacent pair is a candidate boundary,
skipped when the two values coincide; a strictly smaller total MSE replaces
the best candidate (earliest-found minimum wins ties). -/
def stumpSweep (f : ℕ) (n : ℕ) : List (ℚ × ℚ) → SweepState → Option (ℚ × DecisionStump)
  | a :: b :: tl, st =>
    let leftSum := st.leftSum + a.2
    let leftSumSq := st.leftSumSq + a.2 * a.2
    let rightSum := st.rightSum - a.2
    let rightSumSq := st.rightSumSq - a.2 * a.2
    let next := fun best => stumpSweep f n (b :: tl)
      { leftSum := leftSum, leftSumSq := leftSumSq, rightSum := rightSum,
        rightSumSq := rightSumSq, k := st.k + 1, best := best }
    if a.1 = b.1 then next st.best
    else
      let lc : ℚ := st.k + 1
      let rc : ℚ := n - st.k - 1
      let totalMSE := (leftSumSq - leftSum * leftSum / lc) +
        (rightSumSq - rightSum * rightSum / rc)
      let cand : ℚ × DecisionStump := (totalMSE,
        { feature := f, threshold := (a.1 + b.1) / 2,
          leftVal := leftSum / lc, rightVal := rightSum / rc })
      match st.best with
      | none => next (some cand)
      | some (bestMSE, bst) =>
        if totalMSE < bestMSE then next (some cand) else next (some (bestMSE, bst))
  | _, st => st.best

/-- `DecisionStump.train`: for each feature, sort samples by that feature's
value (stably) and sweep candidate boundaries; keep the globally best
feature/threshold pair.  Returns the all-zero stump when `n = 0`, there are
no features, or no valid boundary exists. -/
def stumpTrain (X : List (List ℚ)) (residuals : List ℚ) : DecisionStump :=
  let n := X.length
  let zeroStump : DecisionStump := { feature := 0, threshold := 0, leftVal := 0, rightVal := 0 }
  if n = 0 ∨ (X.headD []).length = 0 then zeroStump
  else
    let nF := (X.headD []).length
    let best := (List.range nF).foldl
      (fun best f =>
        let sorted := ((X.zip residuals).map fun xr => (xr.1.getD f 0, xr.2)).mergeSort
          fun a b => decide (a.1 ≤ b.1)
        let rightSum := (sorted.map (·.2)).sum
        let rightSumSq := (sorted.map fun s => s.2 * s.2).sum
        stumpSweep f n sorted
          { leftSum := 0, leftSumSq := 0, rightSum := rightSum,
            rightSumSq := rightSumSq, k := 0, best := best })
      none
    match best with
    | some (_, st) => st
    | none => zeroStump

/-! ## Gradient boosting regressor -/

/-- `GradientBoostingRegressor`: initial prediction plus staged stumps. -/
structure GBMModel where
  initialPred : ℚ
  estimators : List DecisionStump
  nEstimators : ℕ
  learningRate : ℚ
  deriving DecidableEq

/-- `GradientBoostingRegressor.train`: initial prediction is the target
mean; each round fits a stump to the residuals and updates predictions by
`learningRate × stump output`.  The every-10-rounds event-loop yield has no
data content and is not modelled. -/
def gbmTrain (nEst : ℕ) (lr : ℚ) (X : List (List ℚ)) (y : List ℚ) : GBMModel :=
  let n : ℚ := y.length
  let init := y.sum / n
  let preds0 := y.map fun _ => init
  let res0 := (y.zip preds0).map fun p => p.1 - p.2
  let final := (List.range nEst).foldl
    (fun (acc : List ℚ × List ℚ × List DecisionStump) _ =>
      let (preds, residuals, estimators) := acc
      let st := stumpTrain X residuals
      let update := X.map (stumpPredictSingle st)
      let preds' := (preds.zip update).map fun p => p.1 + lr * p.2
      let residuals' := (y.zip preds').map fun p => p.1 - p.2
      (preds', residuals', estimators ++ [st]))
    (preds0, res0, [])
  { initialPred := init, estimators := final.2.2, nEstimators := nEst, learningRate := lr }

/-- `GradientBoostingRegressor.predict` on a single vector: the initial
prediction plus `learningRate × stump(x)` summed over all stumps. -/
def gbmPredictSingle (m : GBMModel) (x : List ℚ) : ℚ :=
  m.initialPred + (m.estimators.map fun st => m.learningRate * stumpPredictSingle st x).sum

/-! ## Extra trees regressor -/

/-- A node of an `ExtraTree`: either a leaf or an internal split.  In the
source this is a record with optional fields; a node is internal exactly
when `left` is defined. -/
inductive ETreeNode where
  | leaf (value : ℚ)
  | node (value : ℚ) (feature : ℕ) (threshold : ℚ) (left right : ETreeNode)
  deriving DecidableEq

/-- Tree traversal of `ExtraTree.predictSingle`: walk while the node has a
left child, comparing `x[feature] <= threshold` (an out-of-range lookup
compares `false`, taking the right branch). -/
def etPredictTree : ETreeNode → List ℚ → ℚ
  | .leaf v, _ => v
  | .node _ f t l r, x =>
    match x[f]? with
    | some v => if v ≤ t then etPredictTree l x else etPredictTree r x
    | none => etPredictTree r x

/-- Per-feature candidate scan of `ExtraTree.buildNode`: for each feature
of the node's subset with non-constant values, draw one uniformly random
threshold between min and max, score the split, and keep the strictly best
candidate; features whose split would starve a side are skipped after the
draw. -/
def etScanFeatures (minLeaf : ℕ) (X : List (List ℚ)) (y : List ℚ) :
    List ℕ → ℕ × Option (ℚ × ℕ × ℚ) → ℕ × Option (ℚ × ℕ × ℚ)
  | [], acc => acc
  | f :: fs, (s, best) =>
    let vals := X.map fun r => r.getD f 0
    match vals with
    | [] => etScanFeatures minLeaf X y fs (s, best)
    | v0 :: vtl =>
      let mn := vtl.foldl min v0
      let mx := vtl.foldl max v0
      if mn = mx then etScanFeatures minLeaf X y fs (s, best)
      else
        let s' := lcgStep s
        let thr := mn + lcgQ s' * (mx - mn)
        let lPairs := (X.zip y).filter fun ry => decide (ry.1.getD f 0 ≤ thr)
        let rPairs := (X.zip y).filter fun ry => decide (¬ ry.1.getD f 0 ≤ thr)
        let lCount := lPairs.length
        let rCount := rPairs.length
        if lCount < minLeaf ∨ rCount < minLeaf then etScanFeatures minLeaf X y fs (s', best)
        else
          let lSum := (lPairs.map (·.2)).sum
          let lSumSq := (lPairs.map fun p => p.2 * p.2).sum
          let rSum := (rPairs.map (·.2)).sum
          let rSumSq := (rPairs.map fun p => p.2 * p.2).sum
          let score := (lSumSq - lSum * lSum / (lCount : ℚ)) +
            (rSumSq - rSum * rSum / (rCount : ℚ))
          let keep :=
            match best with
            | none => some (score, f, thr)
            | some (bs, bf, bt) => if score < bs then some (score, f, thr) else some (bs, bf, bt)
          etScanFeatures minLeaf X y fs (s', keep)

/-- `ExtraTree.buildNode`: a leaf holds the mean of its samples; an
internal node recurses on the partition induced by the best random
threshold.  The node-local RNG state `s` threads through the feature scan,
then through the left subtree, then the right. -/
def buildNode (md minLeaf : ℕ) (features : List ℕ) (depth : ℕ) (s : ℕ)
    (X : List (List ℚ)) (y : List ℚ) : ETreeNode × ℕ :=
  let n := y.length
  let mean := y.sum / (n : ℚ)
  if _h : md ≤ depth ∨ n < minLeaf * 2 then (.leaf mean, s)
  else
    let scan := etScanFeatures minLeaf X y features (s, none)
    match scan.2 with
    | none => (.leaf mean, scan.1)
    | some (_, bf, bt) =>
      let lPairs := (X.zip y).filter fun ry => decide (ry.1.getD bf 0 ≤ bt)
      let rPairs := (X.zip y).filter fun ry => decide (¬ ry.1.getD bf 0 ≤ bt)
      let lRes := buildNode md minLeaf features (depth + 1) scan.1
        (lPairs.map (·.1)) (lPairs.map (·.2))
      let rRes := buildNode md minLeaf features (depth + 1) lRes.2
        (rPairs.map (·.1)) (rPairs.map (·.2))
      (.node mean bf bt lRes.1 rRes.1, rRes.2)
termination_by md - depth
decreasing_by all_goals omega

/-- `Math.round(Math.sqrt(m))` for a natural number `m`. -/
def jsRoundSqrt (m : ℕ) : ℕ :=
  let r := Nat.sqrt m
  if r * r + r < m then r + 1 else r

/-- The bootstrap sample of one tree: `n` draws of `Math.floor(lcg() * n)`,
threading the per-tree LCG state. -/
def bootstrapSample (n : ℕ) (s : ℕ) (X : List (List ℚ)) (y : List ℚ) :
    ℕ × List (List ℚ) × List ℚ :=
  (List.range n).foldl
    (fun acc _ =>
      let s' := lcgStep acc.1
      let idx := Int.toNat ⌊lcgQ s' * (n : ℚ)⌋
      (s', acc.2.1 ++ [X.getD idx []], acc.2.2 ++ [y.getD idx 0]))
    (s, [], [])

/-- `ExtraTreesRegressor` model: the fitted trees plus constructor
options. -/
structure ETModel where
  trees : List ETreeNode
  nEstimators : ℕ
  maxDepth : ℕ
  deriving DecidableEq

/-- `ExtraTreesRegressor.train`: per tree `i`, seed an LCG with
`42 + i*31337`, bootstrap-resample the rows, shuffle the feature indices
and keep the first `max(1, round(sqrt(nFeatures)))`, then build the tree
with RNG seed `s + 1` (current state plus one, reduced to 32 bits).
The every-5-trees yield/progress callback has no data content; the
emitted progress events are collected at the call site
(`rfProgressEvents`). -/
def etTrain (nEst maxDepth : ℕ) (X : List (List ℚ)) (y : List ℚ) : ETModel :=
  let n := X.length
  let nF := (X.headD []).length
  let kF := max 1 (jsRoundSqrt nF)
  { trees := (List.range nEst).map fun i =>
      let s0 := (42 + i * 31337) % 4294967296
      let boot := bootstrapSample n s0 X y
      let shuffled := fyFloorShuffle boot.1 (List.range nF)
      let subset := shuffled.2.take kF
      (buildNode maxDepth 5 subset 0 ((shuffled.1 + 1) % 4294967296) boot.2.1 boot.2.2).1
    nEstimators := nEst
    maxDepth := maxDepth }

/-- `ExtraTreesRegressor.predict` on a single vector: the arithmetic mean
of the trees' outputs. -/
def etPredict (m : ETModel) (x : List ℚ) : ℚ :=
  (m.trees.map fun t => etPredictTree t x).sum / (m.trees.length : ℚ)

/-! ## Metrics -/

/-- `ModelMetrics`; every field is the sanitized output of
`calculateMetrics`. -/
structure ModelMetrics where
  rmse : ℚ
  mae : ℚ
  r2 : ℚ
  mape : ℚ
  accuracy : ℚ
  deriving DecidableEq

/-- The accumulator loop of `calculateMetrics` (lines 437-445): running
`(ssRes, absError, absPctError, sumActual)` over the parallel rows. -/
def metricSums (actual predicted : List ℚ) : ℚ × ℚ × ℚ × ℚ :=
  (actual.zip predicted).foldl
    (fun acc ap =>
      let err := ap.1 - ap.2
      (acc.1 + err * err,
       acc.2.1 + |err|,
       acc.2.2.1 + (if ap.1 ≠ 0 then |err / ap.1| else 0),
       acc.2.2.2 + ap.1))
    (0, 0, 0, 0)

/-- `SStot = Σ (actual_i - mean(actual))²` (line 447-448). -/
def ssTotOf (actual : List ℚ) : ℚ :=
  let meanActual := actual.sum / (actual.length : ℚ)
  (actual.map fun v => (v - meanActual) ^ 2).sum

/-- `calculateMetrics`: RMSE, MAE, R², MAPE and Accuracy, each passed
through the sanitize guard (non-finite → 0). -/
def calculateMetrics (msqrt : ℚ → ℚ) (actual predicted : List ℚ) : ModelMetrics :=
  let n := actual.length
  if n = 0 then ⟨0, 0, 0, 0, 0⟩
  else
    let sums := metricSums actual predicted
    let ssRes := sums.1
    let absError := sums.2.1
    let absPctError := sums.2.2.1
    let ssTot := ssTotOf actual
    let rmse := sanitize (jsqrt msqrt (jdiv ssRes n))
    let mae := sanitize (jdiv absError n)
    let r2 := sanitize (if ssTot = 0 then .fin 0 else jmax0 (jsub 1 (jdiv ssRes ssTot)))
    let mape := sanitize (jmul 100 (jdiv absPctError n))
    let accuracy := sanitize (.fin (max 0 (min 100 (100 - mape))))
    ⟨rmse, mae, r2, mape, accuracy⟩

/-! ## Permutation feature importance -/

/-- The raw (un-normalized) permutation importances: for each feature
index `f`, shuffle column `f` of the test matrix with the per-feature seed
`42 + f·1234567`, re-predict, and take `max(0, shuffledMSE − baseMSE)`
where `baseMSE = baselineRMSE²`. -/
def permImportanceRaw (predictFn : List (List ℚ) → List ℚ)
    (Xtest : List (List ℚ)) (ytest : List ℚ) (features : List String)
    (baselineRMSE : ℚ) : List (String × ℚ) :=
  let baseMSE := baselineRMSE ^ 2
  (List.range features.length).map fun f =>
    let feat := features.getD f ""
    let vals := Xtest.map fun row => row.getD f 0
    let shuffledVals := (fyFloorShuffle ((42 + f * 1234567) % 4294967296) vals).2
    let Xshuf := (Xtest.zip shuffledVals).map fun rv => rv.1.set f rv.2
    let preds := predictFn Xshuf
    let sse := ((ytest.zip preds).map fun ap => (ap.1 - ap.2) ^ 2).sum
    let mse := sse / (ytest.length : ℚ)
    (feat, max 0 (mse - baseMSE))

/-- The normalized importances, still in original feature order:
`importance / total` when `total > 0`, else the uniform
`1 / numFeatures`. -/
def permImportanceNormalized (predictFn : List (List ℚ) → List ℚ)
    (Xtest : List (List ℚ)) (ytest : List ℚ) (features : List String)
    (baselineRMSE : ℚ) : List (String × ℚ) :=
  let raw := permImportanceRaw predictFn Xtest ytest features baselineRMSE
  let total := (raw.map (·.2)).sum
  raw.map fun e => (e.1, if 0 < total then e.2 / total else 1 / (features.length : ℚ))

/-- `computePermutationImportance`: normalized importances sorted
descending by the stable comparator `(a, b) => b.importance −
a.importance`. -/
def computePermutationImportance (predictFn : List (List ℚ) → List ℚ)
    (Xtest : List (List ℚ)) (ytest : List ℚ) (features : List String)
    (baselineRMSE : ℚ) : List (String × ℚ) :=
  (permImportanceNormalized predictFn Xtest ytest features baselineRMSE).mergeSort
    fun a b => decide (b.2 ≤ a.2)

/-! ## JSON values, serialization, and the external linear-model runtime -/

/-- A JSON-serializable JavaScript value (the structured artifacts that
cross the worker/storage boundary). -/
inductive Json where
  | num (q : ℚ)
  | str (s : String)
  | bool (b : Bool)
  | null
  | arr (elems : List Json)
  | obj (fields : List (String × Json))

/-- First-match field lookup in an object's field list. -/
def lookupField : List (String × Json) → String → Option Json
  | [], _ => none
  | (k', v) :: tl, k => if k' = k then some v else lookupField tl k

/-- Property access `j.k` on a value that is not `null`/`undefined`
(those cases throw and are handled at each call site): an object yields
its field or `undefined`; any other value yields `undefined`. -/
def jget (j : Json) (k : String) : Option Json :=
  match j with
  | .obj fs => lookupField fs k
  | _ => none

/-- `DecisionStump.toJSON`. -/
def stumpToJSON (s : DecisionStump) : Json :=
  .obj [("feature", .num s.feature), ("threshold", .num s.threshold),
        ("leftVal", .num s.leftVal), ("rightVal", .num s.rightVal)]

/-- `GradientBoostingRegressor.toJSON`. -/
def gbmToJSON (m : GBMModel) : Json :=
  .obj [("name", .str "gradientBoosting"), ("initialPred", .num m.initialPred),
        ("nEstimators", .num m.nEstimators), ("learningRate", .num m.learningRate),
        ("estimators", .arr (m.estimators.map stumpToJSON))]

/-- `ExtraTree.nodeToJSON`: a leaf serializes as `{v}`, an internal node
as `{v, f, t, l, r}`. -/
def nodeToJSON : ETreeNode → Json
  | .leaf v => .obj [("v", .num v)]
  | .node v f t l r =>
    .obj [("v", .num v), ("f", .num f), ("t", .num t),
          ("l", nodeToJSON l), ("r", nodeToJSON r)]

/-- `ExtraTreesRegressor.toJSON`. -/
def etToJSON (m : ETModel) : Json :=
  .obj [("name", .str "extraTrees"), ("nEstimators", .num m.nEstimators),
        ("maxDepth", .num m.maxDepth), ("trees", .arr (m.trees.map nodeToJSON))]

/-- The observable interface of a fitted model of the external npm package
`ml-regression-multivariate-linear` (not part of this repository):
a per-row prediction function and its serialized form. -/
structure MLRModel where
  predictOne : List ℚ → ℚ
  json : Json

/-- The runtime parameters of the engine: the `Math.sqrt` primitive on
nonnegative finite rationals, and the external linear-regression package's
fit and load entry points (`load` may throw). -/
structure MLRuntime where
  msqrt : ℚ → ℚ
  mlrFit : List (List ℚ) → List ℚ → MLRModel
  mlrLoad : Json → Except Unit MLRModel

/-! ## 5-fold cross-validation -/

/-- The per-fold metrics of `runKFoldCV`: contiguous validation blocks
(the final block absorbs the remainder), a from-scratch lighter model per
fold (linear with its own per-fold scaler; extra trees with 10 trees of
depth 5; gradient boosting with 30 rounds). -/
def cvFoldMetrics (rt : MLRuntime) (X : List (List ℚ)) (y : List ℚ)
    (modelType : String) (nFolds : ℕ) : List ModelMetrics :=
  let n := X.length
  let foldSize := n / nFolds
  (List.range nFolds).map fun fold =>
    let valStart := fold * foldSize
    let valEnd := if fold = nFolds - 1 then n else valStart + foldSize
    let Xval := (X.take valEnd).drop valStart
    let yval := (y.take valEnd).drop valStart
    let Xtr := X.take valStart ++ X.drop valEnd
    let ytr := y.take valStart ++ y.drop valEnd
    let preds :=
      if modelType = "linear" then
        let sc := scalerFit rt.msqrt Xtr
        let mlr := rt.mlrFit (scalerTransform sc Xtr) ytr
        (scalerTransform sc Xval).map mlr.predictOne
      else if modelType = "rf" then
        let et := etTrain 10 5 Xtr ytr
        Xval.map (etPredict et)
      else
        let g := gbmTrain 30 (5 / 100) Xtr ytr
        Xval.map (gbmPredictSingle g)
    calculateMetrics rt.msqrt yval preds

/-- Per-metric mean over the folds. -/
def metricsMean (ms : List ModelMetrics) : ModelMetrics :=
  let avg := fun (sel : ModelMetrics → ℚ) => ((ms.map sel).sum) / ((ms.length : ℚ))
  ⟨avg (·.rmse), avg (·.mae), avg (·.r2), avg (·.mape), avg (·.accuracy)⟩

/-- Per-metric population standard deviation over the folds
(`Math.sqrt` of the population variance). -/
def metricsStd (msqrt : ℚ → ℚ) (ms : List ModelMetrics) : ModelMetrics :=
  let sd := fun (sel : ModelMetrics → ℚ) =>
    let vals := ms.map sel
    let avg := vals.sum / (vals.length : ℚ)
    msqrt (((vals.map fun v => (v - avg) ^ 2).sum) / (vals.length : ℚ))
  ⟨sd (·.rmse), sd (·.mae), sd (·.r2), sd (·.mape), sd (·.accuracy)⟩

/-- `runKFoldCV` with its fixed 5 folds: the mean and std `ModelMetrics`
across folds. -/
def runKFoldCV (rt : MLRuntime) (X : List (List ℚ)) (y : List ℚ)
    (modelType : String) : ModelMetrics × ModelMetrics :=
  let fm := cvFoldMetrics rt X y modelType 5
  (metricsMean fm, metricsStd rt.msqrt fm)

/-! ## Trained-model artifacts and the training orchestrator -/

/-- `CVMetrics`. -/
structure CVMetrics where
  mean : ModelMetrics
  std : ModelMetrics
  folds : ℕ
  deriving DecidableEq

/-- The live in-process model handle held in `modelInstance` (stripped to
`null` before crossing the worker boundary). -/
inductive ModelInstance where
  | linear (m : MLRModel)
  | rf (m : ETModel)
  | gbm (m : GBMModel)

/-- `TrainedModel`. -/
structure TrainedModel where
  id : String
  type : String
  metrics : ModelMetrics
  cvMetrics : Option CVMetrics
  scalerJSON : Option ScalerJson
  modelInstance : Option ModelInstance
  modelJSON : Option Json
  featureImportance : Option (List (String × ℚ))
  config : TrainingConfig

/-- The fields of a `TrainedModel` other than its clock-derived `id` and
its live `modelInstance` handle. -/
structure TrainedModelData where
  type : String
  metrics : ModelMetrics
  cvMetrics : Option CVMetrics
  scalerJSON : Option ScalerJson
  modelJSON : Option Json
  featureImportance : Option (List (String × ℚ))

/-- Forget the `id` and live handle of a `TrainedModel`. -/
def stripId (m : TrainedModel) : TrainedModelData :=
  ⟨m.type, m.metrics, m.cvMetrics, m.scalerJSON, m.modelJSON, m.featureImportance⟩

/-- The typed rendering of the only error `trainModels` throws itself:
`Not enough valid data rows (count)...`, carrying the clean-row count. -/
inductive TrainError where
  | insufficientData (count : ℕ)
  deriving DecidableEq

/-- The ambient environment of a run: the `Date.now()` clock value used to
mint artifact ids. -/
structure TrainEnv where
  now : ℕ

/-- `Math.round`: round half toward positive infinity. -/
def jsRound (q : ℚ) : ℤ := ⌊q + 1 / 2⌋

/-- A progress event: `(label, percent)`. -/
abbrev ProgressEvent := String × ℚ

/-- The progress events emitted through the `onProgress` callback of
`ExtraTreesRegressor.train` during the main random-forest fit (one event
per 5 trees, `nEstimators = 50`), as relayed by `trainModels` line 696:
label `Training Random Forest (round(pct/2 + 35))%` at percent
`35 + round(pct · 0.12)` where `pct = i/50·100`. -/
def rfProgressEvents : List ProgressEvent :=
  (List.range 50).filterMap fun (i : ℕ) =>
    if i % 5 = 0 then
      let pct : ℚ := (i : ℚ) / 50 * 100
      some ("Training Random Forest (" ++ toString (jsRound (pct / 2 + 35)) ++ "%)…",
        35 + (jsRound (pct * (12 / 100)) : ℚ))
    else none

/-- The linear-regression block of `trainModels` (lines 647-686): scale
(fit on the training partition only), fit the external linear model,
evaluate, compute importance and cross-validate; returns its progress
events and its artifact. -/
def trainLinearSection (rt : MLRuntime) (env : TrainEnv) (cfg : TrainingConfig)
    (prep : PrepData) : List ProgressEvent × List TrainedModel :=
  let sc := scalerFit rt.msqrt prep.Xtrain
  let Xtrs := scalerTransform sc prep.Xtrain
  let Xtes := scalerTransform sc prep.Xtest
  let mlr := rt.mlrFit Xtrs prep.ytrain
  let predictions := Xtes.map mlr.predictOne
  let metrics := calculateMetrics rt.msqrt prep.ytest predictions
  let importance := computePermutationImportance
    (fun Xs => (scalerTransform sc Xs).map mlr.predictOne)
    prep.Xtest prep.ytest cfg.features metrics.rmse
  let cv := runKFoldCV rt prep.Xall prep.yall "linear"
  ([("Training Linear Regression…", 10),
    ("Computing feature importance (Linear)…", 15),
    ("Cross-validating Linear Regression (5 folds)…", 20)],
   [{ id := "linear-" ++ toString env.now, type := "Linear Regression",
      metrics := metrics, cvMetrics := some ⟨cv.1, cv.2, 5⟩,
      scalerJSON := some sc, modelInstance := some (.linear mlr),
      modelJSON := some mlr.json, featureImportance := some importance,
      config := cfg }])

/-- The random-forest (extra-trees) block of `trainModels`
(lines 691-720). -/
def trainRFSection (rt : MLRuntime) (env : TrainEnv) (cfg : TrainingConfig)
    (prep : PrepData) : List ProgressEvent × List TrainedModel :=
  let et := etTrain 50 6 prep.Xtrain prep.ytrain
  let predictions := prep.Xtest.map (etPredict et)
  let metrics := calculateMetrics rt.msqrt prep.ytest predictions
  let importance := computePermutationImportance
    (fun Xs => Xs.map (etPredict et))
    prep.Xtest prep.ytest cfg.features metrics.rmse
  let cv := runKFoldCV rt prep.Xall prep.yall "rf"
  ([("Training Random Forest (50 trees)…", 35)] ++ rfProgressEvents ++
   [("Computing feature importance (Random Forest)…", 48),
    ("Cross-validating Random Forest (5 folds)…", 55)],
   [{ id := "rf-" ++ toString env.now, type := "Random Forest",
      metrics := metrics, cvMetrics := some ⟨cv.1, cv.2, 5⟩,
      scalerJSON := none, modelInstance := some (.rf et),
      modelJSON := some (etToJSON et), featureImportance := some importance,
      config := cfg }])

/-- The gradient-boosting block of `trainModels` (lines 723-752). -/
def trainXGBSection (rt : MLRuntime) (env : TrainEnv) (cfg : TrainingConfig)
    (prep : PrepData) : List ProgressEvent × List TrainedModel :=
  let g := gbmTrain 80 (5 / 100) prep.Xtrain prep.ytrain
  let predictions := prep.Xtest.map (gbmPredictSingle g)
  let metrics := calculateMetrics rt.msqrt prep.ytest predictions
  let importance := computePermutationImportance
    (fun Xs => Xs.map (gbmPredictSingle g))
    prep.Xtest prep.ytest cfg.features metrics.rmse
  let cv := runKFoldCV rt prep.Xall prep.yall "xgboost"
  ([("Training Gradient Boosting (80 rounds)…", 65),
    ("Computing feature importance (Gradient Boosting)…", 75),
    ("Cross-validating Gradient Boosting (5 folds)…", 80)],
   [{ id := "xgb-" ++ toString env.now, type := "Gradient Boosting",
      metrics := metrics, cvMetrics := some ⟨cv.1, cv.2, 5⟩,
      scalerJSON := none, modelInstance := some (.gbm g),
      modelJSON := some (gbmToJSON g), featureImportance := some importance,
      config := cfg }])

/-- `trainModels`: clean, reject when fewer than 10 clean rows remain
(before any model is fit), otherwise shuffle/split once and run the
requested model blocks in order.  Returns the ordered progress-event
stream together with either the typed error or the artifact list. -/
def trainModels (rt : MLRuntime) (env : TrainEnv) (data : List Row)
    (cfg : TrainingConfig) : List ProgressEvent × Except TrainError (List TrainedModel) :=
  let cleanData := cleanRows cfg data
  if cleanData.length < 10 then
    ([("Cleaning data…", 5)], .error (.insufficientData cleanData.length))
  else
    let prep := prepare cfg cleanData
    let lin := if cfg.models.contains "linear" then trainLinearSection rt env cfg prep
      else ([], [])
    let rf := if cfg.models.contains "rf" then trainRFSection rt env cfg prep
      else ([], [])
    let xgb := if cfg.models.contains "xgboost" then trainXGBSection rt env cfg prep
      else ([], [])
    ([("Cleaning data…", 5)] ++ lin.1 ++ rf.1 ++ xgb.1 ++ [("Finalising…", 95)],
     .ok (lin.2 ++ rf.2 ++ xgb.2))

/-! ## Model reconstruction and prediction

Reconstruction runs inside `try { ... } catch { return null }`; throwing
operations are modelled with `Except Unit`.  A JavaScript value read from a
parsed JSON field that should be a number is modelled as `Option ℚ`
(`none` = `undefined` or a value whose arithmetic yields `NaN`; the string
and array coercion corners of JS arithmetic are collapsed to `none` and
never appear in any statement below). -/

/-- A possibly-`NaN`/`undefined` number inside a reconstructed model. -/
abbrev LV := Option ℚ

/-- Read a field value as a number: numbers read as themselves, `null` and
booleans coerce (`0`/`1`), everything else (including a missing field,
i.e. `undefined`) is collapsed to `none`. -/
def jsToLV : Option Json → LV
  | some (.num q) => some q
  | some (.bool b) => some (if b then 1 else 0)
  | some (.null) => some 0
  | _ => none

/-- `NaN`-propagating addition. -/
def lvAdd : LV → LV → LV
  | some a, some b => some (a + b)
  | _, _ => none

/-- `NaN`-propagating multiplication. -/
def lvMul : LV → LV → LV
  | some a, some b => some (a * b)
  | _, _ => none

/-- Division; a zero denominator only ever arises here as `0/0 = NaN`. -/
def lvDiv : LV → LV → LV
  | some a, some b => if b = 0 then none else some (a / b)
  | _, _ => none

/-- JavaScript `<=`: `false` whenever either side is `NaN`/`undefined`. -/
def lvLe : LV → LV → Bool
  | some a, some b => decide (a ≤ b)
  | _, _ => false

/-- Array indexing `x[f]` with a deserialized (rational) index: defined
exactly when `f` is a nonnegative integer within bounds, `undefined`
otherwise. -/
def lvIndex (x : List ℚ) : LV → LV
  | some q => if q.den = 1 ∧ 0 ≤ q.num then x[Int.toNat q.num]? else none
  | none => none

/-- A deserialized `ExtraTree` node as `ExtraTree.nodeFromJSON` builds it:
a leaf when field `f` is absent, an internal node otherwise, with every
numeric payload read leniently. -/
inductive LNode where
  | leaf (v : LV)
  | node (v : LV) (f : LV) (t : LV) (l r : LNode)

mutual

/-- Structural size of a JSON value, used as recursion fuel for
`nodeFromJSON`. -/
def jsize : Json → ℕ
  | .num _ => 1
  | .str _ => 1
  | .bool _ => 1
  | .null => 1
  | .arr es => 1 + jsizeL es
  | .obj fs => 1 + jsizeF fs

/-- Size of a JSON array's elements. -/
def jsizeL : List Json → ℕ
  | [] => 0
  | j :: tl => jsize j + jsizeL tl

/-- Size of a JSON object's field values. -/
def jsizeF : List (String × Json) → ℕ
  | [] => 0
  | kv :: tl => jsize kv.2 + jsizeF tl

end

/-- `ExtraTree.nodeFromJSON` with explicit recursion fuel: property access
on `undefined` or `null` throws; a value without an `f` field is read as a
leaf; otherwise the children are parsed recursively.  Fuel at least the
structural size of the input never runs out. -/
def nodeFromJSON : ℕ → Option Json → Except Unit LNode
  | 0, _ => .error ()
  | _, none => .error ()
  | _, some .null => .error ()
  | fuel + 1, some j =>
    match jget j "f" with
    | none => .ok (.leaf (jsToLV (jget j "v")))
    | some fv => do
      let l ← nodeFromJSON fuel (jget j "l")
      let r ← nodeFromJSON fuel (jget j "r")
      .ok (.node (jsToLV (jget j "v")) (jsToLV (some fv)) (jsToLV (jget j "t")) l r)

/-- A reconstructed extra-trees ensemble. -/
structure LETModel where
  trees : List LNode
  nEstimators : LV
  maxDepth : LV

/-- `ExtraTreesRegressor.load`: reads the constructor options, then
`json.trees.map(ExtraTree.load)` — which throws unless `trees` is an
array. -/
def etLoad (j : Option Json) : Except Unit LETModel :=
  match j with
  | none => .error ()
  | some .null => .error ()
  | some jv =>
    match jget jv "trees" with
    | some (.arr ts) => do
      let trees ← ts.mapM fun t => nodeFromJSON (jsize t) (some t)
      .ok { trees := trees, nEstimators := jsToLV (jget jv "nEstimators"),
            maxDepth := jsToLV (jget jv "maxDepth") }
    | _ => .error ()

/-- Walk a deserialized tree: `x[f] <= t ? left : right`. -/
def lnodePredict : LNode → List ℚ → LV
  | .leaf v, _ => v
  | .node _ f t l r, x =>
    if lvLe (lvIndex x f) t then lnodePredict l x else lnodePredict r x

/-- Prediction with a reconstructed ensemble: sum of tree outputs divided
by the number of trees. -/
def letPredict (m : LETModel) (x : List ℚ) : LV :=
  lvDiv (m.trees.foldl (fun acc t => lvAdd acc (lnodePredict t x)) (some 0))
    (some (m.trees.length : ℚ))

/-- A deserialized decision stump. -/
structure LStump where
  feature : LV
  threshold : LV
  leftVal : LV
  rightVal : LV

/-- `DecisionStump.load`: plain field reads (property access on a
non-object primitive yields `undefined`, it only throws on `null`). -/
def stumpLoad (j : Json) : Except Unit LStump :=
  match j with
  | .null => .error ()
  | jv => .ok { feature := jsToLV (jget jv "feature"),
                threshold := jsToLV (jget jv "threshold"),
                leftVal := jsToLV (jget jv "leftVal"),
                rightVal := jsToLV (jget jv "rightVal") }

/-- A reconstructed gradient-boosting model. -/
structure LGBMModel where
  initialPred : LV
  learningRate : LV
  estimators : List LStump

/-- `GradientBoostingRegressor.load`: constructor options with the
`?? 0.05` default for a missing/null learning rate, then
`json.estimators.map(DecisionStump.load)` — which throws unless
`estimators` is an array. -/
def gbmLoad (j : Option Json) : Except Unit LGBMModel :=
  match j with
  | none => .error ()
  | some .null => .error ()
  | some jv =>
    let lr : LV :=
      match jget jv "learningRate" with
      | some (.num q) => some q
      | none => some (5 / 100)
      | some .null => some (5 / 100)
      | some _ => none
    match jget jv "estimators" with
    | some (.arr es) => do
      let sts ← es.mapM stumpLoad
      .ok { initialPred := jsToLV (jget jv "initialPred"),
            learningRate := lr, estimators := sts }
    | _ => .error ()

/-- Prediction with a deserialized stump. -/
def lstumpPredict (st : LStump) (x : List ℚ) : LV :=
  if lvLe (lvIndex x st.feature) st.threshold then st.leftVal else st.rightVal

/-- Prediction with a reconstructed gradient-boosting model. -/
def lgbmPredict (m : LGBMModel) (x : List ℚ) : LV :=
  m.estimators.foldl (fun acc st => lvAdd acc (lvMul m.learningRate (lstumpPredict st x)))
    m.initialPred

/-- A live predictor rebuilt from serialized form. -/
inductive LoadedModel where
  | rf (m : LETModel)
  | gbm (m : LGBMModel)
  | linear (m : MLRModel)

/-- `reconstructModel`: `null` when `modelJSON` is absent; dispatch on the
type tag, `null` for an unknown tag; any exception inside a loader is
caught and mapped to `null`. -/
def reconstructModel (rt : MLRuntime) (modelData : TrainedModel) : Option LoadedModel :=
  match modelData.modelJSON with
  | none => none
  | some mj =>
    if modelData.type = "Random Forest" then (etLoad (some mj)).toOption.map .rf
    else if modelData.type = "Gradient Boosting" then (gbmLoad (some mj)).toOption.map .gbm
    else if modelData.type = "Linear Regression" then (rt.mlrLoad mj).toOption.map .linear
    else none

/-- `predictWithModel`: `none` is the `null` sentinel; a successful branch
returns `some` of the (possibly `NaN`) predicted number.  The linear
branch re-applies the stored scaler when present. -/
def predictWithModel (rt : MLRuntime) (modelData : TrainedModel)
    (inputVector : List ℚ) : Option LV :=
  match reconstructModel rt modelData with
  | none => none
  | some (.linear mlr) =>
    let scaled :=
      match modelData.scalerJSON with
      | some sj => scalerTransformSingle sj inputVector
      | none => inputVector
    some (some (mlr.predictOne scaled))
  | some (.rf et) => some (letPredict et inputVector)
  | some (.gbm g) => some (lgbmPredict g inputVector)

/-! ## Permutation properties of the shuffles -/

theorem swapL_perm {α : Type} [DecidableEq α] (l : List α) (i j : ℕ) :
    (swapL l i j).Perm l := by
  unfold swapL
  cases hi : l.get? i with
  | none => exact List.Perm.refl l
  | some a =>
    cases hj : l.get? j with
    | none => exact List.Perm.refl l
    | some b =>
      rw [List.get?_eq_getElem?] at hi hj
      obtain ⟨hilt, hival⟩ := List.getElem?_eq_some.mp hi
      obtain ⟨hjlt, hjval⟩ := List.getElem?_eq_some.mp hj
      show ((l.set i b).set j a).Perm l
      rw [List.perm_iff_count]
      intro x
      have hjlt' : j < (l.set i b).length := by simpa using hjlt
      rw [List.count_set a x (l.set i b) j hjlt', List.count_set b x l i hilt]
      have hbj : (l.set i b)[j] = b := by
        rw [List.getElem_set]
        split
        · rfl
        · exact hjval
      rw [hbj, hival]
      have hcount : (if a == x then 1 else 0) ≤ l.count x := by
        split
        · next h =>
          have hx : x ∈ l := by
            rw [← beq_iff_eq.mp h, ← hival]
            exact List.getElem_mem hilt
          exact List.count_pos_iff.mpr hx
        · exact Nat.zero_le _
      omega

theorem foldlSwap_perm {α : Type} [DecidableEq α] (step : ℕ → ℕ) (jf : ℕ → ℕ → ℕ) :
    ∀ (idxs : List ℕ) (s : ℕ) (l : List α),
      ((idxs.foldl (fun acc i => (step acc.1, swapL acc.2 i (jf acc.1 i))) (s, l)).2).Perm l := by
  intro idxs
  induction idxs with
  | nil => intro s l; exact List.Perm.refl l
  | cons i tl ih =>
    intro s l
    exact ((ih (step s) (swapL l i (jf s i))).trans (swapL_perm l i (jf s i)))

theorem shuffleLCG_perm {α : Type} [DecidableEq α] (seed : ℕ) (l : List α) :
    (shuffleLCG seed l).Perm l :=
  foldlSwap_perm lcgStep (fun s i => lcgStep s % (i + 1))
    ((List.range l.length).drop 1).reverse seed l

/-- **C10** — Shuffle/split is a pairing-preserving partition: the
cleaned feature rows zipped with their targets are shuffled as pairs, so
`X_train ++ X_test` (re-paired with `y_train ++ y_test`) is exactly the
shuffled pair list, which is a permutation of the original clean pairs —
no row is lost, duplicated, or re-paired — and `X_all`/`y_all`, the data
handed to cross-validation, is exactly that concatenation in the same
shuffled order. -/
theorem C10_shuffle_split_pairing (cfg : TrainingConfig) (clean : List Row) :
    ((prepare cfg clean).Xtrain.zip (prepare cfg clean).ytrain) ++
      ((prepare cfg clean).Xtest.zip (prepare cfg clean).ytest) =
      (prepare cfg clean).Xall.zip (prepare cfg clean).yall ∧
    ((prepare cfg clean).Xall.zip (prepare cfg clean).yall).Perm
      ((clean.map (featVec cfg)).zip (clean.map (targetVal cfg))) := by
  unfold prepare
  simp only [List.zip_map', Prod.mk.eta, List.map_id, List.map_id']
  constructor
  · exact List.take_append_drop _ _
  · exact shuffleLCG_perm _ _

/-! ## Insufficient data, clean-row filtering, determinism -/

/-- **C2** — Insufficient-data rejection: whenever fewer than 10 clean
rows remain after filtering, `trainModels` fails with the typed
`InsufficientData` error carrying the actual clean-row count, produces no
`TrainedModel` artifact, and no model is fit (the only emitted progress
event is the cleaning tick). -/
theorem C2_insufficient_data (rt : MLRuntime) (env : TrainEnv) (data : List Row)
    (cfg : TrainingConfig) (h : (cleanRows cfg data).length < 10) :
    trainModels rt env data cfg =
      ([("Cleaning data…", 5)], .error (.insufficientData (cleanRows cfg data).length)) := by
  unfold trainModels
  simp [h]

/-- A trivial runtime instantiation for concrete evaluations. -/
def rtTrivial : MLRuntime :=
  ⟨fun _ => 0, fun _ _ => ⟨fun _ => 0, Json.null⟩, fun _ => .error ()⟩

/-- A zero clock environment. -/
def envZero : TrainEnv := ⟨0⟩

/-- A minimal concrete training configuration. -/
def cfgDemo : TrainingConfig := ⟨"t", ["a"], 1 / 5, ["linear", "rf", "xgboost"]⟩

theorem C2_insufficient_data_witness :
    trainModels rtTrivial envZero [] cfgDemo =
      ([("Cleaning data…", 5)], .error (.insufficientData 0)) := by
  simpa using C2_insufficient_data rtTrivial envZero [] cfgDemo (by simp [cleanRows])

theorem cleanRows_idem (cfg : TrainingConfig) (data : List Row) :
    cleanRows cfg (cleanRows cfg data) = cleanRows cfg data := by
  simp [cleanRows, List.filter_filter]

/-- **C7** (amended) — Clean-row filtering: `trainModels` depends on its
input rows only through `cleanRows` (so rows failing the filter are
silently excluded from training rather than raising an error), and a row
passes the filter exactly when its target cell and every configured
feature cell have a non-`NaN` `Number(...)` coercion and are neither `''`
nor `null`.  (A `±Infinity`-valued cell passes this filter even though it
is not finite — see the counterexample.) -/
theorem C7_clean_row_filtering (rt : MLRuntime) (env : TrainEnv)
    (cfg : TrainingConfig) (data : List Row) :
    trainModels rt env data cfg = trainModels rt env (cleanRows cfg data) cfg ∧
    ∀ r : Row, r ∈ cleanRows cfg data ↔
      r ∈ data ∧ cellValid (r cfg.targetVariable) = true ∧
        ∀ f ∈ cfg.features, cellValid (r f) = true := by
  constructor
  · unfold trainModels
    rw [cleanRows_idem]
  · intro r
    simp [cleanRows, rowValid, List.mem_filter, List.all_eq_true, and_assoc]

/-- A row whose every cell is the number `Infinity`. -/
def rowInf : Row := fun _ => Cell.infVal false

/-- A configuration over target `t` and single feature `a`. -/
def cfgInf : TrainingConfig := ⟨"t", ["a"], 1 / 5, []⟩

/-- Counterexample to C7 as stated: a row whose target coerces to
`Infinity` — not a finite number — is kept by the clean-row filter
(`isNaN(Infinity)` is `false`), so `trainModels` does not train only on
rows whose configured values parse to finite numbers. -/
theorem C7_counterexample :
    cleanRows cfgInf [rowInf] = [rowInf] ∧ (rowInf "t").toNum.isFiniteb = false := by
  exact ⟨rfl, rfl⟩

theorem stripId_linearSection (rt : MLRuntime) (e1 e2 : TrainEnv)
    (cfg : TrainingConfig) (prep : PrepData) :
    (trainLinearSection rt e1 cfg prep).2.map stripId =
      (trainLinearSection rt e2 cfg prep).2.map stripId := rfl

theorem stripId_rfSection (rt : MLRuntime) (e1 e2 : TrainEnv)
    (cfg : TrainingConfig) (prep : PrepData) :
    (trainRFSection rt e1 cfg prep).2.map stripId =
      (trainRFSection rt e2 cfg prep).2.map stripId := rfl

theorem stripId_xgbSection (rt : MLRuntime) (e1 e2 : TrainEnv)
    (cfg : TrainingConfig) (prep : PrepData) :
    (trainXGBSection rt e1 cfg prep).2.map stripId =
      (trainXGBSection rt e2 cfg prep).2.map stripId := rfl

/-- **C1** — Determinism of training: every randomized step is driven by
fixed-seed LCGs, so the only ambient input of `trainModels` is the clock
used to mint artifact ids.  For one fixed runtime (the same `Math.sqrt`
and linear-regression package), any two runs on identical rows and config
— whatever their ambient clocks — produce artifact lists that agree on
every field except `id` (and the live in-process handle): in particular
on `metrics`, `cvMetrics`, `scalerJSON`, `modelJSON` and
`featureImportance`. -/
theorem C1_training_deterministic (rt : MLRuntime) (e1 e2 : TrainEnv)
    (data : List Row) (cfg : TrainingConfig) :
    (trainModels rt e1 data cfg).2.map (List.map stripId) =
      (trainModels rt e2 data cfg).2.map (List.map stripId) := by
  unfold trainModels
  by_cases hlen : (cleanRows cfg data).length < 10
  · simp [hlen]
  · cases h1 : cfg.models.contains "linear" <;>
      cases h2 : cfg.models.contains "rf" <;>
        cases h3 : cfg.models.contains "xgboost" <;>
          simp [hlen, h1, h2, h3, Except.map,
            stripId_linearSection rt e1 e2 cfg, stripId_rfSection rt e1 e2 cfg,
            stripId_xgbSection rt e1 e2 cfg]

/-! ## Metric bounds and the MAPE quirk -/

theorem metricSums_eq (actual predicted : List ℚ) :
    metricSums actual predicted =
      (((actual.zip predicted).map fun ap => (ap.1 - ap.2) * (ap.1 - ap.2)).sum,
       ((actual.zip predicted).map fun ap => |ap.1 - ap.2|).sum,
       ((actual.zip predicted).map fun ap => if ap.1 ≠ 0 then |(ap.1 - ap.2) / ap.1| else 0).sum,
       ((actual.zip predicted).map (·.1)).sum) := by
  have key : ∀ (l : List (ℚ × ℚ)) (a b c d : ℚ),
      l.foldl
        (fun acc ap =>
          let err := ap.1 - ap.2
          (acc.1 + err * err,
           acc.2.1 + |err|,
           acc.2.2.1 + (if ap.1 ≠ 0 then |err / ap.1| else 0),
           acc.2.2.2 + ap.1))
        (a, b, c, d) =
      (a + (l.map fun ap => (ap.1 - ap.2) * (ap.1 - ap.2)).sum,
       b + (l.map fun ap => |ap.1 - ap.2|).sum,
       c + (l.map fun ap => if ap.1 ≠ 0 then |(ap.1 - ap.2) / ap.1| else 0).sum,
       d + (l.map (·.1)).sum) := by
    intro l
    induction l with
    | nil => intro a b c d; simp
    | cons hd tl ih =>
      intro a b c d
      simp only [List.foldl_cons, List.map_cons, List.sum_cons, ih, Prod.mk.injEq]
      refine ⟨by ring, by ring, by ring, by ring⟩
  unfold metricSums
  rw [key]
  simp

theorem ssTotOf_nonneg (actual : List ℚ) : 0 ≤ ssTotOf actual := by
  unfold ssTotOf
  apply List.sum_nonneg
  intro x hx
  obtain ⟨v, _, rfl⟩ := List.mem_map.mp hx
  positivity

theorem ssRes_nonneg (actual predicted : List ℚ) : 0 ≤ (metricSums actual predicted).1 := by
  rw [metricSums_eq]
  apply List.sum_nonneg
  intro x hx
  obtain ⟨v, _, rfl⟩ := List.mem_map.mp hx
  exact mul_self_nonneg _

theorem calculateMetrics_r2_eq (msqrt : ℚ → ℚ) (actual predicted : List ℚ)
    (hn : actual.length ≠ 0) :
    (calculateMetrics msqrt actual predicted).r2 =
      if ssTotOf actual = 0 then 0
      else max 0 (1 - (metricSums actual predicted).1 / ssTotOf actual) := by
  by_cases h0 : ssTotOf actual = 0 <;>
    simp [calculateMetrics, hn, h0, jdiv, jsub, jmax0, sanitize]

theorem calculateMetrics_accuracy_eq (msqrt : ℚ → ℚ) (actual predicted : List ℚ)
    (hn : actual.length ≠ 0) :
    (calculateMetrics msqrt actual predicted).accuracy =
      max 0 (min 100 (100 - (calculateMetrics msqrt actual predicted).mape)) := by
  simp [calculateMetrics, hn, sanitize]

/-- **C3** (amended) — Metric bounds and sanitization: for every pair of
actual/predicted arrays, `r2 ∈ [0,1]`, `r2 = 0` whenever `SStot = 0` (the
constant-target guard), and `accuracy ∈ [0,100]`; every output field is
the image of the sanitize guard (which replaces a non-finite value by 0 —
in exact arithmetic every guarded intermediate is finite).  The converse
direction of the guard is false: `r2 = 0` does **not** imply `SStot = 0`
(see the counterexample). -/
theorem C3_metric_bounds (msqrt : ℚ → ℚ) (actual predicted : List ℚ) :
    0 ≤ (calculateMetrics msqrt actual predicted).r2 ∧
    (calculateMetrics msqrt actual predicted).r2 ≤ 1 ∧
    (ssTotOf actual = 0 → (calculateMetrics msqrt actual predicted).r2 = 0) ∧
    0 ≤ (calculateMetrics msqrt actual predicted).accuracy ∧
    (calculateMetrics msqrt actual predicted).accuracy ≤ 100 := by
  by_cases hn : actual.length = 0
  · simp [calculateMetrics, hn]
  · have hss := ssRes_nonneg actual predicted
    have htot := ssTotOf_nonneg actual
    rw [calculateMetrics_r2_eq msqrt actual predicted hn,
      calculateMetrics_accuracy_eq msqrt actual predicted hn]
    refine ⟨?_, ?_, ?_, le_max_left 0 _, max_le (by norm_num) (min_le_left _ _)⟩
    · by_cases h0 : ssTotOf actual = 0 <;> simp [h0]
    · by_cases h0 : ssTotOf actual = 0
      · simp [h0]
      · have hpos : 0 < ssTotOf actual := lt_of_le_of_ne htot (Ne.symm h0)
        have hq : 0 ≤ (metricSums actual predicted).1 / ssTotOf actual :=
          div_nonneg hss htot
        simp only [h0, if_false]
        exact max_le (by norm_num) (by linarith)
    · intro h0
      simp [h0]

/-- Counterexample to C3 as stated: on `actual = [0, 2]`,
`predicted = [2, 0]` the residual sum of squares exceeds `SStot`, so the
`max(0, ·)` clamp makes `r2 = 0` even though `SStot = 2 ≠ 0` — refuting
“`r2 = 0` exactly when `SStot = 0`”. -/
theorem C3_counterexample :
    (calculateMetrics (fun _ => 0) [0, 2] [2, 0]).r2 = 0 ∧ ssTotOf [0, 2] ≠ 0 := by
  constructor
  · have h : ssTotOf [0, 2] = 2 := by norm_num [ssTotOf]
    simp only [calculateMetrics, metricSums_eq, h]
    norm_num [jdiv, jsub, jmax0, sanitize]
  · norm_num [ssTotOf]

theorem sum_map_ite_eq_sum_filter (f : ℚ × ℚ → ℚ) (l : List (ℚ × ℚ)) :
    (l.map fun ap => if ap.1 ≠ 0 then f ap else 0).sum =
      ((l.filter fun ap => decide (ap.1 ≠ 0)).map f).sum := by
  induction l with
  | nil => simp
  | cons hd tl ih =>
    simp only [List.map_cons, List.sum_cons, List.filter_cons]
    by_cases h : hd.1 = 0
    · rw [if_neg (by simpa using h), if_neg (by simpa using h)]
      simpa using ih
    · rw [if_pos (by simpa using h), if_pos (by simpa using h)]
      simp only [List.map_cons, List.sum_cons]
      rw [ih]

/-- **C6** — MAPE full-count quirk: for parallel arrays of length `n ≥ 1`,
`mape` is the sum of `|(actual − predicted)/actual|` over the rows with
`actual ≠ 0` divided by the **full** row count `n` (not the nonzero-actual
count), times 100; and `accuracy = clamp(100 − mape, 0, 100)`. -/
theorem C6_mape_full_count (msqrt : ℚ → ℚ) (actual predicted : List ℚ)
    (h1 : 1 ≤ actual.length) (_h2 : predicted.length = actual.length) :
    (calculateMetrics msqrt actual predicted).mape =
      (((actual.zip predicted).filter fun ap => decide (ap.1 ≠ 0)).map
        fun ap => |(ap.1 - ap.2) / ap.1|).sum / (actual.length : ℚ) * 100 ∧
    (calculateMetrics msqrt actual predicted).accuracy =
      max 0 (min 100 (100 - (calculateMetrics msqrt actual predicted).mape)) := by
  have hn : actual.length ≠ 0 := by omega
  have hnq : ((actual.length : ℚ)) ≠ 0 := by exact_mod_cast hn
  constructor
  · simp only [calculateMetrics, metricSums_eq, hn, if_false, jdiv, hnq, jmul, sanitize,
      sum_map_ite_eq_sum_filter]
  · simp only [calculateMetrics, hn, if_false, sanitize]

theorem C6_mape_full_count_witness :
    (calculateMetrics (fun _ => 0) [1, 0, 2] [2, 0, 1]).mape =
      ((([(1:ℚ), 0, 2].zip [(2:ℚ), 0, 1]).filter fun ap => decide (ap.1 ≠ 0)).map
        fun ap => |(ap.1 - ap.2) / ap.1|).sum / (([(1:ℚ), 0, 2].length : ℚ)) * 100 ∧
    (calculateMetrics (fun _ => 0) [1, 0, 2] [2, 0, 1]).accuracy =
      max 0 (min 100 (100 - (calculateMetrics (fun _ => 0) [1, 0, 2] [2, 0, 1]).mape)) :=
  C6_mape_full_count (fun _ => 0) [1, 0, 2] [2, 0, 1] (by norm_num) (by norm_num)

/-! ## Feature-importance normalization -/

theorem sum_map_div (l : List ℚ) (c : ℚ) : (l.map (· / c)).sum = l.sum / c := by
  induction l with
  | nil => simp
  | cons h t ih => simp [ih, add_div]

theorem permImportanceRaw_nonneg (pf : List (List ℚ) → List ℚ) (Xt : List (List ℚ))
    (yt : List ℚ) (fs : List String) (b : ℚ) :
    ∀ e ∈ permImportanceRaw pf Xt yt fs b, 0 ≤ e.2 := by
  intro e he
  unfold permImportanceRaw at he
  obtain ⟨f, _, rfl⟩ := List.mem_map.mp he
  exact le_max_left 0 _

theorem permImportanceRaw_length (pf : List (List ℚ) → List ℚ) (Xt : List (List ℚ))
    (yt : List ℚ) (fs : List String) (b : ℚ) :
    (permImportanceRaw pf Xt yt fs b).length = fs.length := by
  simp [permImportanceRaw]

theorem permImportanceNormalized_sum (pf : List (List ℚ) → List ℚ) (Xt : List (List ℚ))
    (yt : List ℚ) (fs : List String) (b : ℚ) (hne : fs ≠ []) :
    ((permImportanceNormalized pf Xt yt fs b).map (·.2)).sum = 1 := by
  have hlen : fs.length ≠ 0 := by simpa [List.length_eq_zero] using hne
  have hlenq : ((fs.length : ℚ)) ≠ 0 := by exact_mod_cast hlen
  unfold permImportanceNormalized
  have hnn : 0 ≤ ((permImportanceRaw pf Xt yt fs b).map (·.2)).sum :=
    List.sum_nonneg (by
      intro x hx
      obtain ⟨e, he, rfl⟩ := List.mem_map.mp hx
      exact permImportanceRaw_nonneg pf Xt yt fs b e he)
  by_cases hpos : 0 < ((permImportanceRaw pf Xt yt fs b).map (·.2)).sum
  · simp only [hpos, if_true, List.map_map]
    have hsplit : ((permImportanceRaw pf Xt yt fs b).map (·.2)).map
        (· / ((permImportanceRaw pf Xt yt fs b).map (·.2)).sum) =
        (permImportanceRaw pf Xt yt fs b).map
          ((·.2 : String × ℚ → ℚ) ∘ fun e : String × ℚ =>
            (e.1, e.2 / ((permImportanceRaw pf Xt yt fs b).map (·.2)).sum)) := by
      rw [List.map_map]
      rfl
    rw [← hsplit, sum_map_div]
    exact div_self (ne_of_gt hpos)
  · simp only [hpos, if_false, List.map_map]
    have hsplit : (permImportanceRaw pf Xt yt fs b).map
        ((·.2 : String × ℚ → ℚ) ∘ fun e : String × ℚ => (e.1, 1 / ((fs.length : ℚ)))) =
        List.replicate (permImportanceRaw pf Xt yt fs b).length (1 / ((fs.length : ℚ))) := by
      rw [← List.map_const']
      rfl
    rw [hsplit, List.sum_replicate, permImportanceRaw_length, nsmul_eq_mul]
    field_simp

/-- **C5** — Feature-importance normalization: for a non-empty feature
list the returned importance values sum to exactly 1 (hence within 1e-9);
when the total raw importance is zero every feature gets the uniform
`1/|features|`; the returned list is sorted in descending importance
order; and the stable sort keeps entries of equal importance in their
original feature order (the pre-sort entries of importance `v` form a
sublist of the result, for every `v`). -/
theorem C5_importance_normalization (pf : List (List ℚ) → List ℚ) (Xt : List (List ℚ))
    (yt : List ℚ) (fs : List String) (b : ℚ) (hne : fs ≠ []) :
    ((computePermutationImportance pf Xt yt fs b).map (·.2)).sum = 1 ∧
    (((permImportanceRaw pf Xt yt fs b).map (·.2)).sum = 0 →
      ∀ e ∈ computePermutationImportance pf Xt yt fs b, e.2 = 1 / ((fs.length : ℚ))) ∧
    (computePermutationImportance pf Xt yt fs b).Pairwise (fun a e => e.2 ≤ a.2) ∧
    ∀ v : ℚ,
      ((permImportanceNormalized pf Xt yt fs b).filter fun e => decide (e.2 = v)).Sublist
        (computePermutationImportance pf Xt yt fs b) := by
  have htrans : ∀ (a e c : String × ℚ),
      (fun a e : String × ℚ => decide (e.2 ≤ a.2)) a e = true →
      (fun a e : String × ℚ => decide (e.2 ≤ a.2)) e c = true →
      (fun a e : String × ℚ => decide (e.2 ≤ a.2)) a c = true := by
    intro a e c h1 h2
    simp only [decide_eq_true_eq] at h1 h2 ⊢
    exact le_trans h2 h1
  have htotal : ∀ (a e : String × ℚ),
      ((fun a e : String × ℚ => decide (e.2 ≤ a.2)) a e ||
        (fun a e : String × ℚ => decide (e.2 ≤ a.2)) e a) = true := by
    intro a e
    simp only [Bool.or_eq_true, decide_eq_true_eq]
    exact le_total e.2 a.2
  have hperm : (computePermutationImportance pf Xt yt fs b).Perm
      (permImportanceNormalized pf Xt yt fs b) :=
    List.mergeSort_perm _ _
  refine ⟨?_, ?_, ?_, ?_⟩
  · rw [(hperm.map (·.2)).sum_eq]
    exact permImportanceNormalized_sum pf Xt yt fs b hne
  · intro h0 e he
    have he' : e ∈ permImportanceNormalized pf Xt yt fs b := hperm.mem_iff.mp he
    unfold permImportanceNormalized at he'
    obtain ⟨r, _, rfl⟩ := List.mem_map.mp he'
    simp [h0]
  · have := List.sorted_mergeSort htrans htotal
      (permImportanceNormalized pf Xt yt fs b)
    exact this.imp (by intro a e h; simpa using h)
  · intro v
    apply List.sublist_mergeSort htrans htotal
    · apply List.pairwise_of_forall_mem_list
      intro a ha e heq
      have ha' := (List.mem_filter.mp ha).2
      have he' := (List.mem_filter.mp heq).2
      simp only [decide_eq_true_eq] at ha' he' ⊢
      rw [ha', he']
    · exact List.filter_sublist _

theorem C5_importance_normalization_witness :
    ((computePermutationImportance (fun _ => []) [] [] ["a"] 0).map (·.2)).sum = 1 :=
  (C5_importance_normalization (fun _ => []) [] [] ["a"] 0 (by simp)).1

/-! ## Serialization round-trip -/

/-- The deserialized image of a trained tree node. -/
def toLNode : ETreeNode → LNode
  | .leaf v => .leaf (some v)
  | .node v f t l r => .node (some v) (some (f : ℚ)) (some t) (toLNode l) (toLNode r)

theorem jsize_pos (j : Json) : 1 ≤ jsize j := by
  cases j <;> simp [jsize]

theorem nodeFromJSON_toJSON (t : ETreeNode) :
    ∀ fuel : ℕ, jsize (nodeToJSON t) ≤ fuel →
      nodeFromJSON fuel (some (nodeToJSON t)) = .ok (toLNode t) := by
  induction t with
  | leaf v =>
    intro fuel hfuel
    cases fuel with
    | zero => simp [nodeToJSON, jsize, jsizeF] at hfuel
    | succ fu => rfl
  | node v f t l r ihl ihr =>
    intro fuel hfuel
    cases fuel with
    | zero => simp [nodeToJSON, jsize, jsizeF] at hfuel
    | succ fu =>
      have hsize : jsize (nodeToJSON (.node v f t l r)) =
          4 + jsize (nodeToJSON l) + jsize (nodeToJSON r) := by
        simp [nodeToJSON, jsize, jsizeF]
        ring
      have hl : jsize (nodeToJSON l) ≤ fu := by omega
      have hr : jsize (nodeToJSON r) ≤ fu := by omega
      have h1 : jget (nodeToJSON (.node v f t l r)) "f" = some (.num (f : ℚ)) := rfl
      have h2 : jget (nodeToJSON (.node v f t l r)) "l" = some (nodeToJSON l) := rfl
      have h3 : jget (nodeToJSON (.node v f t l r)) "r" = some (nodeToJSON r) := rfl
      have h4 : jget (nodeToJSON (.node v f t l r)) "v" = some (.num v) := rfl
      have h5 : jget (nodeToJSON (.node v f t l r)) "t" = some (.num t) := rfl
      show nodeFromJSON (fu + 1) (some (nodeToJSON (.node v f t l r))) = _
      rw [nodeFromJSON, h1]
      · simp only [ihl fu hl, ihr fu hr, h2, h3, h4, h5]
        rfl
      · simp [nodeToJSON]

theorem lvIndex_natCast (x : List ℚ) (f : ℕ) : lvIndex x (some ((f : ℕ) : ℚ)) = x[f]? := by
  simp [lvIndex, Rat.den_natCast, Rat.num_natCast]

theorem lnodePredict_toLNode (t : ETreeNode) (x : List ℚ) :
    lnodePredict (toLNode t) x = some (etPredictTree t x) := by
  induction t with
  | leaf v => rfl
  | node v f th l r ihl ihr =>
    show lnodePredict (.node (some v) (some (f : ℚ)) (some th) (toLNode l) (toLNode r)) x = _
    rw [lnodePredict, lvIndex_natCast]
    cases hx : x[f]? with
    | none =>
      simp only [lvLe, Bool.false_eq_true, if_false, ihr]
      simp [etPredictTree, hx]
    | some w =>
      by_cases hw : w ≤ th
      · simp [lvLe, hw, ihl, etPredictTree, hx]
      · simp [lvLe, hw, ihr, etPredictTree, hx]

theorem mapM_nodeFromJSON (trees : List ETreeNode) :
    (trees.map nodeToJSON).mapM (fun t => nodeFromJSON (jsize t) (some t)) =
      .ok (trees.map toLNode) := by
  induction trees with
  | nil => rfl
  | cons hd tl ih =>
    simp only [List.map_cons, List.mapM_cons,
      nodeFromJSON_toJSON hd (jsize (nodeToJSON hd)) (le_refl _), ih]
    rfl

theorem etLoad_toJSON (m : ETModel) :
    etLoad (some (etToJSON m)) =
      .ok ⟨m.trees.map toLNode, some (m.nEstimators : ℚ), some (m.maxDepth : ℚ)⟩ := by
  have htrees : jget (etToJSON m) "trees" = some (.arr (m.trees.map nodeToJSON)) := rfl
  show etLoad (some (etToJSON m)) = _
  rw [etLoad]
  · simp only [htrees, mapM_nodeFromJSON]
    rfl
  · simp [etToJSON]

theorem lvAdd_some (a b : ℚ) : lvAdd (some a) (some b) = some (a + b) := rfl

theorem lvMul_some (a b : ℚ) : lvMul (some a) (some b) = some (a * b) := rfl

theorem letPredict_fold (x : List ℚ) (ts : List ETreeNode) :
    ∀ a : ℚ, (ts.map toLNode).foldl (fun acc t => lvAdd acc (lnodePredict t x)) (some a) =
      some (a + (ts.map fun t => etPredictTree t x).sum) := by
  induction ts with
  | nil => intro a; simp
  | cons hd tl ih =>
    intro a
    simp only [List.map_cons, List.foldl_cons, lnodePredict_toLNode hd x, lvAdd_some,
      List.sum_cons, ih]
    rw [add_assoc]

/-- The deserialized image of a trained decision stump. -/
def toLStump (st : DecisionStump) : LStump :=
  ⟨some ((st.feature : ℕ) : ℚ), some st.threshold, some st.leftVal, some st.rightVal⟩

theorem stumpLoad_toJSON (st : DecisionStump) :
    stumpLoad (stumpToJSON st) = .ok (toLStump st) := rfl

theorem lstumpPredict_toLStump (st : DecisionStump) (x : List ℚ) :
    lstumpPredict (toLStump st) x = some (stumpPredictSingle st x) := by
  show lstumpPredict ⟨some ((st.feature : ℕ) : ℚ), some st.threshold, some st.leftVal,
    some st.rightVal⟩ x = _
  rw [lstumpPredict]
  simp only [lvIndex_natCast]
  cases hx : x[st.feature]? with
  | none => simp [lvLe, stumpPredictSingle, hx]
  | some w =>
    by_cases hw : w ≤ st.threshold
    · simp [lvLe, hw, stumpPredictSingle, hx]
    · simp [lvLe, hw, stumpPredictSingle, hx]

theorem mapM_stumpLoad (sts : List DecisionStump) :
    (sts.map stumpToJSON).mapM stumpLoad = .ok (sts.map toLStump) := by
  induction sts with
  | nil => rfl
  | cons hd tl ih =>
    simp only [List.map_cons, List.mapM_cons, stumpLoad_toJSON hd, ih]
    rfl

theorem gbmLoad_toJSON (m : GBMModel) :
    gbmLoad (some (gbmToJSON m)) =
      .ok ⟨some m.initialPred, some m.learningRate, m.estimators.map toLStump⟩ := by
  have hlr : jget (gbmToJSON m) "learningRate" = some (.num m.learningRate) := rfl
  have hes : jget (gbmToJSON m) "estimators" = some (.arr (m.estimators.map stumpToJSON)) := rfl
  have hip : jget (gbmToJSON m) "initialPred" = some (.num m.initialPred) := rfl
  show gbmLoad (some (gbmToJSON m)) = _
  rw [gbmLoad]
  · simp only [hlr, hes, hip, mapM_stumpLoad]
    rfl
  · simp [gbmToJSON]

theorem lgbmPredict_fold (z : List ℚ) (lr : ℚ) (sts : List DecisionStump) :
    ∀ a : ℚ, (sts.map toLStump).foldl
        (fun acc st => lvAdd acc (lvMul (some lr) (lstumpPredict st z))) (some a) =
      some (a + (sts.map fun st => lr * stumpPredictSingle st z).sum) := by
  induction sts with
  | nil => intro a; simp
  | cons hd tl ih =>
    intro a
    simp only [List.map_cons, List.foldl_cons, lstumpPredict_toLStump hd z, lvMul_some,
      lvAdd_some, List.sum_cons, ih]
    rw [add_assoc]

/-- **C4** — Serialization round-trip: for every trained extra-trees or
gradient-boosting model and every input vector, `predict` on the model
reconstructed from its serialized form (`load` applied to `toJSON`, the
tree serializing recursively) equals `predict` on the original in-memory
model — exactly, hence in particular within `1e-9` — with no retraining.
(The extra-trees ensemble needs at least one tree, as an empty ensemble
predicts `0/0 = NaN` both before and after the round-trip.) -/
theorem C4_serialization_roundtrip (et : ETModel) (g : GBMModel) (x z : List ℚ) :
    (et.trees ≠ [] →
      (etLoad (some (etToJSON et))).map (fun m => letPredict m x) =
        .ok (some (etPredict et x))) ∧
    (gbmLoad (some (gbmToJSON g))).map (fun m => lgbmPredict m z) =
      .ok (some (gbmPredictSingle g z)) ∧
    (∀ q : ℚ, (etLoad (some (etToJSON et))).map (fun m => letPredict m x) = .ok (some q) →
      |q - etPredict et x| ≤ 1 / 1000000000) ∧
    (∀ q : ℚ, (gbmLoad (some (gbmToJSON g))).map (fun m => lgbmPredict m z) = .ok (some q) →
      |q - gbmPredictSingle g z| ≤ 1 / 1000000000) := by
  have hgbm : (gbmLoad (some (gbmToJSON g))).map (fun m => lgbmPredict m z) =
      .ok (some (gbmPredictSingle g z)) := by
    rw [gbmLoad_toJSON]
    show Except.ok (lgbmPredict ⟨some g.initialPred, some g.learningRate,
      g.estimators.map toLStump⟩ z) = _
    rw [lgbmPredict]
    simp only [lgbmPredict_fold z g.learningRate g.estimators g.initialPred]
    rfl
  have het : et.trees ≠ [] →
      (etLoad (some (etToJSON et))).map (fun m => letPredict m x) =
        .ok (some (etPredict et x)) := by
    intro hne
    have hlenq : ((et.trees.length : ℚ)) ≠ 0 := by
      have : et.trees.length ≠ 0 := by simpa [List.length_eq_zero] using hne
      exact_mod_cast this
    rw [etLoad_toJSON]
    show Except.ok (letPredict ⟨et.trees.map toLNode, some (et.nEstimators : ℚ),
      some (et.maxDepth : ℚ)⟩ x) = _
    rw [letPredict]
    simp only [letPredict_fold x et.trees 0, zero_add, List.length_map]
    simp [lvDiv, hlenq, etPredict]
  refine ⟨het, hgbm, ?_, ?_⟩
  · intro q hq
    by_cases hne : et.trees = []
    · rw [etLoad_toJSON] at hq
      simp only [hne, List.map_nil, Except.map] at hq
      simp [letPredict, lvDiv] at hq
    · rw [het hne] at hq
      have : q = etPredict et x := (by simpa using hq : etPredict et x = q).symm
      rw [this]
      simp
  · intro q hq
    rw [hgbm] at hq
    have : q = gbmPredictSingle g z := (by simpa using hq : gbmPredictSingle g z = q).symm
    rw [this]
    simp

theorem C4_serialization_roundtrip_witness :
    (etLoad (some (etToJSON ⟨[ETreeNode.leaf 1], 1, 6⟩))).map
        (fun m => letPredict m []) =
      .ok (some (etPredict ⟨[ETreeNode.leaf 1], 1, 6⟩ [])) :=
  (C4_serialization_roundtrip ⟨[ETreeNode.leaf 1], 1, 6⟩ ⟨0, [], 0, 0⟩ [] []).1
    (by simp)

/-! ## Progress-stream shape -/

theorem linearSection_events (rt : MLRuntime) (env : TrainEnv) (cfg : TrainingConfig)
    (prep : PrepData) :
    (trainLinearSection rt env cfg prep).1 =
      [("Training Linear Regression…", 10),
       ("Computing feature importance (Linear)…", 15),
       ("Cross-validating Linear Regression (5 folds)…", 20)] := rfl

theorem rfSection_events (rt : MLRuntime) (env : TrainEnv) (cfg : TrainingConfig)
    (prep : PrepData) :
    (trainRFSection rt env cfg prep).1 =
      [("Training Random Forest (50 trees)…", 35)] ++ rfProgressEvents ++
        [("Computing feature importance (Random Forest)…", 48),
         ("Cross-validating Random Forest (5 folds)…", 55)] := rfl

theorem xgbSection_events (rt : MLRuntime) (env : TrainEnv) (cfg : TrainingConfig)
    (prep : PrepData) :
    (trainXGBSection rt env cfg prep).1 =
      [("Training Gradient Boosting (80 rounds)…", 65),
       ("Computing feature importance (Gradient Boosting)…", 75),
       ("Cross-validating Gradient Boosting (5 folds)…", 80)] := rfl

theorem rfProgressEvents_pcts :
    rfProgressEvents.map (·.2) = [35, 36, 37, 39, 40, 41, 42, 43, 45, 46] := by
  norm_num [rfProgressEvents, jsRound, List.range_succ, List.filterMap_cons]

/-- **C8** (amended) — Progress-stream shape: for every successful run of
`trainModels`, the emitted `(label, percent)` events have percent
monotonically non-decreasing from first to last, and the stream terminates
with the event `("Finalising…", 95)`.  (No `"done"`/100-percent progress
event is emitted by the engine — completion is signalled by the separate
result message; see the counterexample.) -/
theorem C8_progress_stream (rt : MLRuntime) (env : TrainEnv) (data : List Row)
    (cfg : TrainingConfig) (h : (trainModels rt env data cfg).2.isOk = true) :
    List.Chain' (fun a e : ProgressEvent => a.2 ≤ e.2) (trainModels rt env data cfg).1 ∧
    (trainModels rt env data cfg).1.getLast? = some ("Finalising…", 95) := by
  unfold trainModels at h ⊢
  by_cases hlen : (cleanRows cfg data).length < 10
  · simp only [hlen, if_true] at h
    simp [Except.isOk, Except.toBool] at h
  · simp only [hlen, if_false] at h ⊢
    constructor
    · rw [← List.chain'_map (·.2 : ProgressEvent → ℚ)]
      cases h1 : cfg.models.contains "linear" <;>
        cases h2 : cfg.models.contains "rf" <;>
          cases h3 : cfg.models.contains "xgboost" <;>
            · simp only [h1, h2, h3, if_true, if_false, Bool.false_eq_true,
                linearSection_events, rfSection_events, xgbSection_events,
                List.map_append, rfProgressEvents_pcts, List.map_cons, List.map_nil,
                List.nil_append, List.append_nil, List.cons_append, List.append_assoc]
              norm_num [List.chain'_cons, List.chain'_singleton]
    · simp only [List.getLast?_append, List.getLast?_singleton, Option.or_some, Option.or]

/-- A row every cell of which is the number 1. -/
def rowOne : Row := fun _ => Cell.num 1

/-- Ten clean rows. -/
def rows10 : List Row := List.replicate 10 rowOne

/-- A configuration requesting no model kinds (a successful run whose
progress stream is just the cleaning and finalising ticks). -/
def cfgNoModels : TrainingConfig := ⟨"t", ["a"], 1 / 5, []⟩

theorem C8_progress_stream_witness :
    List.Chain' (fun a e : ProgressEvent => a.2 ≤ e.2)
      (trainModels rtTrivial envZero rows10 cfgNoModels).1 ∧
    (trainModels rtTrivial envZero rows10 cfgNoModels).1.getLast? =
      some ("Finalising…", 95) :=
  C8_progress_stream rtTrivial envZero rows10 cfgNoModels (by decide)

/-- Counterexample to C8 as stated: a successful run (ten clean rows, no
model kinds requested) whose progress stream ends with
`("Finalising…", 95)` — there is no `"done"`-labelled event at percent
100 terminating the stream. -/
theorem C8_counterexample :
    (trainModels rtTrivial envZero rows10 cfgNoModels).2.isOk = true ∧
    (trainModels rtTrivial envZero rows10 cfgNoModels).1 =
      [("Cleaning data…", 5), ("Finalising…", 95)] ∧
    (95 : ℚ) ≠ 100 := by
  refine ⟨by decide, by decide, by norm_num⟩

/-! ## Sentinel behaviour of reconstruction and prediction -/

/-- The serialized form lacks a `trees` array (so
`ExtraTreesRegressor.load` throws). -/
def treesArrAbsent (j : Json) : Bool :=
  match jget j "trees" with
  | some (.arr _) => false
  | _ => true

/-- The serialized form lacks an `estimators` array (so
`GradientBoostingRegressor.load` throws). -/
def estimatorsArrAbsent (j : Json) : Bool :=
  match jget j "estimators" with
  | some (.arr _) => false
  | _ => true

theorem etLoad_error_of_absent (mj : Json) (h : treesArrAbsent mj = true) :
    etLoad (some mj) = .error () := by
  unfold treesArrAbsent at h
  unfold etLoad
  cases mj <;> simp_all [jget]
  split <;> simp_all

theorem gbmLoad_error_of_absent (mj : Json) (h : estimatorsArrAbsent mj = true) :
    gbmLoad (some mj) = .error () := by
  unfold estimatorsArrAbsent at h
  unfold gbmLoad
  cases mj <;> simp_all [jget]
  split <;> simp_all

/-- **C9** (amended) — Sentinel on reconstruction failure:
`predictWithModel` is a total function (never throws); it returns the
`null` sentinel when the stored artifact has no `modelJSON`, when the
type tag is unknown, and when the serialized model is corrupted in a way
that makes reconstruction throw (a Random-Forest artifact without a
`trees` array, a Gradient-Boosting artifact without an `estimators`
array).  A feature-count mismatch between the input vector and the
model's configured features, however, does **not** yield the sentinel for
tree models — a numeric prediction is returned, out-of-range feature
lookups comparing false and taking the right branch (see the
counterexample). -/
theorem C9_sentinel_cases (rt : MLRuntime) (m : TrainedModel) (x : List ℚ) :
    (m.modelJSON = none → predictWithModel rt m x = none) ∧
    (m.type ≠ "Random Forest" → m.type ≠ "Gradient Boosting" →
      m.type ≠ "Linear Regression" → predictWithModel rt m x = none) ∧
    (∀ mj : Json, m.modelJSON = some mj → m.type = "Random Forest" →
      treesArrAbsent mj = true → predictWithModel rt m x = none) ∧
    (∀ mj : Json, m.modelJSON = some mj → m.type = "Gradient Boosting" →
      estimatorsArrAbsent mj = true → predictWithModel rt m x = none) := by
  refine ⟨?_, ?_, ?_, ?_⟩
  · intro h
    simp [predictWithModel, reconstructModel, h]
  · intro h1 h2 h3
    unfold predictWithModel reconstructModel
    cases hj : m.modelJSON with
    | none => rfl
    | some mj => simp [h1, h2, h3]
  · intro mj hj htype habs
    unfold predictWithModel reconstructModel
    rw [hj]
    simp [htype, etLoad_error_of_absent mj habs, Except.toOption]
  · intro mj hj htype habs
    unfold predictWithModel reconstructModel
    rw [hj]
    have : m.type ≠ "Random Forest" := by simp [htype]
    simp [htype, this, gbmLoad_error_of_absent mj habs, Except.toOption]

/-- A stored Random-Forest artifact whose serialized payload is absent. -/
def noJsonStored : TrainedModel :=
  { id := "m", type := "Random Forest", metrics := ⟨0, 0, 0, 0, 0⟩, cvMetrics := none,
    scalerJSON := none, modelInstance := none, modelJSON := none,
    featureImportance := none, config := cfgDemo }

theorem C9_sentinel_cases_witness :
    predictWithModel rtTrivial noJsonStored [] = none :=
  (C9_sentinel_cases rtTrivial noJsonStored []).1 rfl

/-- A serialized one-tree forest splitting on feature index 1 (two
configured features). -/
def rfTreeJson : Json := etToJSON ⟨[ETreeNode.node 0 1 (1 / 2) (.leaf 1) (.leaf 2)], 1, 6⟩

/-- A stored two-feature Random-Forest artifact. -/
def rfStored : TrainedModel :=
  { id := "rf-1", type := "Random Forest", metrics := ⟨0, 0, 0, 0, 0⟩, cvMetrics := none,
    scalerJSON := none, modelInstance := none, modelJSON := some rfTreeJson,
    featureImportance := none, config := ⟨"t", ["a", "b"], 1 / 5, ["rf"]⟩ }

/-- Counterexample to C9 as stated: feeding a 1-component vector to a
reconstructed model with 2 configured features does not yield the `null`
sentinel — the out-of-range lookup of feature 1 compares `false`, the
walk takes the right branch, and the numeric prediction `2` is
returned. -/
theorem C9_counterexample :
    rfStored.config.features.length = 2 ∧
    ([(0 : ℚ)].length ≠ rfStored.config.features.length) ∧
    predictWithModel rtTrivial rfStored [0] = some (some 2) := by
  refine ⟨rfl, by decide, ?_⟩
  have h1 : predictWithModel rtTrivial rfStored [0] =
      some (letPredict ⟨[ETreeNode.node 0 1 (1 / 2) (.leaf 1) (.leaf 2)].map toLNode,
        some ((1 : ℕ) : ℚ), some ((6 : ℕ) : ℚ)⟩ [0]) := by
    simp [predictWithModel, reconstructModel, rfStored, rfTreeJson, etLoad_toJSON,
      Except.toOption]
  rw [h1]
  simp only [List.map_cons, List.map_nil, letPredict, List.foldl_cons, List.foldl_nil,
    toLNode, lnodePredict, lvIndex_natCast]
  norm_num [lvLe, lvAdd, lvDiv]

end MLE
